import Mathlib

/-!
Verification of the alvis algorithm-visualizer playback engine
(src/algorithm-visualizer.jsx) against its natural-language specification.

The core of the program is `playbackReducer`, a pure state machine over
`PlaybackState` driven by the actions of `PlaybackActions`, plus the small
facade pieces `speedToDelay`, `setSpeed` and `usePlayback`. Each is embedded
below directly from the source; positions are modelled as `Int` (JavaScript
numbers restricted to the integer values the engine actually manipulates),
speed multipliers as `ℚ`.
-/

namespace Alvis

/-- Value of one field of an AlgorithmStep payload (`Record<string, any>` in
the source; the mock trace only ever stores numbers, arrays of numbers and
strings). -/
inductive PayloadValue where
  | num (n : Int)
  | arr (ns : List Int)
  | str (s : String)
deriving DecidableEq

/-- One step of an execution trace: `{ id, type, payload }`. -/
structure AlgorithmStep where
  id : Int
  type : String
  payload : List (String × PayloadValue)
deriving DecidableEq

/-- Trace metadata: `{ timeComplexity, spaceComplexity, notes }`. -/
structure ExecutionMetadata where
  timeComplexity : String
  spaceComplexity : String
  notes : String
deriving DecidableEq

/-- An execution trace: `{ steps, metadata }`. -/
structure ExecutionTrace where
  steps : List AlgorithmStep
  metadata : ExecutionMetadata
deriving DecidableEq

/-- The mock trace `MOCK_TRACE` from section 2 of the source. -/
def MOCK_TRACE : ExecutionTrace :=
  { steps :=
      [ ⟨0, "visit",    [("node", .num 1), ("label", .str "Start node")]⟩,
        ⟨1, "compare",  [("a", .num 1), ("b", .num 2), ("label", .str "Compare neighbors")]⟩,
        ⟨2, "visit",    [("node", .num 2), ("label", .str "Move to node 2")]⟩,
        ⟨3, "frontier", [("nodes", .arr [3, 4]), ("label", .str "Add to frontier")]⟩,
        ⟨4, "compare",  [("a", .num 2), ("b", .num 3), ("label", .str "Evaluate cost")]⟩,
        ⟨5, "visit",    [("node", .num 3), ("label", .str "Visit node 3")]⟩,
        ⟨6, "pivot",    [("node", .num 3), ("label", .str "Set as pivot")]⟩,
        ⟨7, "swap",     [("i", .num 0), ("j", .num 3), ("label", .str "Swap elements")]⟩,
        ⟨8, "visit",    [("node", .num 4), ("label", .str "Visit node 4")]⟩,
        ⟨9, "path",     [("nodes", .arr [1, 2, 3, 4]), ("label", .str "Final path found")]⟩ ],
    metadata :=
      ⟨"O(V + E)", "O(V)",
       "Mock BFS-style trace for engine validation. No real algorithm runs here."⟩ }

/-- The action set of the state machine (`PlaybackActions` in the source).
`JUMP` and `SET_TRACE` carry their `action.payload`; `SET_TRACE` may carry
`null` (the engine is constructed with `initialTrace = null` by default). -/
inductive PlaybackActions where
  | PLAY
  | PAUSE
  | STEP_FWD
  | STEP_BACK
  | RESET
  | JUMP (payload : Int)
  | TICK
  | SET_TRACE (payload : Option ExecutionTrace)
deriving DecidableEq

/-- The reducer state: `{ trace, currentStepIndex, isPlaying }`. -/
structure PlaybackState where
  trace : Option ExecutionTrace
  currentStepIndex : Int
  isPlaying : Bool
deriving DecidableEq

/-- The source constant `initialPlaybackState`. -/
def initialPlaybackState : PlaybackState :=
  { trace := none, currentStepIndex := 0, isPlaying := false }

/-- The pure reducer `playbackReducer(state, action)` from the source,
case by case. `TICK` and `STEP_FWD` share one case body (a fallthrough in
the source switch). -/
def playbackReducer (state : PlaybackState) (action : PlaybackActions) : PlaybackState :=
  let totalSteps : Int := match state.trace with
    | some t => t.steps.length
    | none => 0
  match action with
  | .SET_TRACE payload => { initialPlaybackState with trace := payload }
  | .PLAY =>
      if state.trace.isNone ∨ state.currentStepIndex ≥ totalSteps - 1 then state
      else { state with isPlaying := true }
  | .PAUSE => { state with isPlaying := false }
  | .TICK | .STEP_FWD =>
      let next := state.currentStepIndex + 1
      if next ≥ totalSteps then { state with isPlaying := false }
      else { state with currentStepIndex := next }
  | .STEP_BACK =>
      let prev := max 0 (state.currentStepIndex - 1)
      { state with isPlaying := false, currentStepIndex := prev }
  | .RESET => { state with currentStepIndex := 0, isPlaying := false }
  | .JUMP payload =>
      let idx := max 0 (min (totalSteps - 1) payload)
      { state with currentStepIndex := idx, isPlaying := false }

/-- The state `usePlaybackEngine(initialTrace)` hands to `useReducer`:
`{ ...initialPlaybackState, trace: initialTrace }`. -/
def initialEngineState (initialTrace : Option ExecutionTrace) : PlaybackState :=
  { initialPlaybackState with trace := initialTrace }

/-- Dispatching a list of actions in order through the reducer. -/
def applyActions (s : PlaybackState) (acts : List PlaybackActions) : PlaybackState :=
  acts.foldl playbackReducer s

/-- A state is reachable if some initial trace and some command sequence
produce it. -/
def Reachable (s : PlaybackState) : Prop :=
  ∃ t0 acts, applyActions (initialEngineState t0) acts = s

lemma reachable_applyActions (t0 : Option ExecutionTrace) (acts : List PlaybackActions) :
    Reachable (applyActions (initialEngineState t0) acts) := ⟨t0, acts, rfl⟩

/-- The inductive invariant of the reducer: the position is a valid index
(0 when no trace is loaded), and playing requires a loaded trace of at
least two steps. -/
def StateInv (s : PlaybackState) : Prop :=
  0 ≤ s.currentStepIndex ∧
  (s.trace = none → s.currentStepIndex = 0) ∧
  (∀ t, s.trace = some t → s.currentStepIndex ≤ max 0 ((t.steps.length : Int) - 1)) ∧
  (s.isPlaying = true → ∃ t, s.trace = some t ∧ 2 ≤ t.steps.length)

/-- The speed-dependent part of the engine: the reducer state together with
the mutable `speedRef` cell (default `1.0`). -/
structure EngineState where
  playback : PlaybackState
  speedRef : ℚ
deriving DecidableEq

/-- The source helper `speedToDelay = (spd) => Math.round(1000 / spd)`.
For positive arguments `Math.round` and Mathlib round agree (both are
floor of the argument plus one half). -/
def speedToDelay (spd : ℚ) : ℤ := round (1000 / spd)

/-- Spec-side mapping `rateToIntervalMs(x) = round(1000 / x)` (section 4.2
of the spec), written out for comparison with `speedToDelay`. -/
def rateToIntervalMs (x : ℚ) : ℤ := round (1000 / x)

/-- The source callback `setSpeed`, which only writes
`Math.max(0.1, Math.min(5, spd))` into the speed ref. -/
def setSpeed (e : EngineState) (spd : ℚ) : EngineState :=
  { e with speedRef := max (1 / 10) (min 5 spd) }

/-- The hook `usePlayback`: reading the context throws when no provider has
supplied an engine value, and returns the engine otherwise. -/
def usePlayback {α : Type} (ctx : Option α) : Except String α :=
  match ctx with
  | none => Except.error "usePlayback must be used within PlaybackProvider"
  | some c => Except.ok c

lemma stateInv_initialEngineState (t0 : Option ExecutionTrace) :
    StateInv (initialEngineState t0) := by
  refine ⟨le_refl 0, fun _ => rfl, fun t _ => le_max_left 0 _, fun h => ?_⟩
  simp [initialEngineState, initialPlaybackState] at h

section ReducerEquations

lemma reducer_setTrace (s : PlaybackState) (p : Option ExecutionTrace) :
    playbackReducer s (.SET_TRACE p) = ⟨p, 0, false⟩ := rfl

lemma reducer_pause (tr : Option ExecutionTrace) (pos : Int) (play : Bool) :
    playbackReducer ⟨tr, pos, play⟩ .PAUSE = ⟨tr, pos, false⟩ := rfl

lemma reducer_reset (tr : Option ExecutionTrace) (pos : Int) (play : Bool) :
    playbackReducer ⟨tr, pos, play⟩ .RESET = ⟨tr, 0, false⟩ := rfl

lemma reducer_stepBack (tr : Option ExecutionTrace) (pos : Int) (play : Bool) :
    playbackReducer ⟨tr, pos, play⟩ .STEP_BACK = ⟨tr, max 0 (pos - 1), false⟩ := rfl

lemma reducer_play_none (pos : Int) (play : Bool) :
    playbackReducer ⟨none, pos, play⟩ .PLAY = ⟨none, pos, play⟩ := rfl

lemma reducer_play_some (t : ExecutionTrace) (pos : Int) (play : Bool) :
    playbackReducer ⟨some t, pos, play⟩ .PLAY =
      if pos ≥ (t.steps.length : Int) - 1 then ⟨some t, pos, play⟩
      else ⟨some t, pos, true⟩ := by
  simp [playbackReducer]

lemma reducer_tick_none (pos : Int) (play : Bool) :
    playbackReducer ⟨none, pos, play⟩ .TICK =
      if pos + 1 ≥ (0 : Int) then ⟨none, pos, false⟩ else ⟨none, pos + 1, play⟩ := rfl

lemma reducer_tick_some (t : ExecutionTrace) (pos : Int) (play : Bool) :
    playbackReducer ⟨some t, pos, play⟩ .TICK =
      if pos + 1 ≥ (t.steps.length : Int) then ⟨some t, pos, false⟩
      else ⟨some t, pos + 1, play⟩ := rfl

lemma reducer_stepFwd_none (pos : Int) (play : Bool) :
    playbackReducer ⟨none, pos, play⟩ .STEP_FWD =
      if pos + 1 ≥ (0 : Int) then ⟨none, pos, false⟩ else ⟨none, pos + 1, play⟩ := rfl

lemma reducer_stepFwd_some (t : ExecutionTrace) (pos : Int) (play : Bool) :
    playbackReducer ⟨some t, pos, play⟩ .STEP_FWD =
      if pos + 1 ≥ (t.steps.length : Int) then ⟨some t, pos, false⟩
      else ⟨some t, pos + 1, play⟩ := rfl

lemma reducer_jump_none (pos : Int) (play : Bool) (p : Int) :
    playbackReducer ⟨none, pos, play⟩ (.JUMP p) =
      ⟨none, max 0 (min ((0 : Int) - 1) p), false⟩ := rfl

lemma reducer_jump_some (t : ExecutionTrace) (pos : Int) (play : Bool) (p : Int) :
    playbackReducer ⟨some t, pos, play⟩ (.JUMP p) =
      ⟨some t, max 0 (min ((t.steps.length : Int) - 1) p), false⟩ := rfl

end ReducerEquations

lemma stateInv_reducer (s : PlaybackState) (a : PlaybackActions) (h : StateInv s) :
    StateInv (playbackReducer s a) := by
  obtain ⟨tr, pos, play⟩ := s
  have h0 : (0 : Int) ≤ pos := h.1
  have hnone : tr = none → pos = 0 := h.2.1
  have hsome : ∀ u, tr = some u → pos ≤ max 0 ((u.steps.length : Int) - 1) := h.2.2.1
  have hplay : play = true → ∃ u, tr = some u ∧ 2 ≤ u.steps.length := h.2.2.2
  cases a with
  | SET_TRACE payload =>
      rw [reducer_setTrace]
      exact ⟨le_refl 0, fun _ => rfl, fun u _ => le_max_left 0 _, fun hp => by simp at hp⟩
  | PAUSE =>
      rw [reducer_pause]
      exact ⟨h0, hnone, fun u hu => hsome u hu, fun hp => by simp at hp⟩
  | RESET =>
      rw [reducer_reset]
      exact ⟨le_refl 0, fun _ => rfl, fun u _ => le_max_left 0 _, fun hp => by simp at hp⟩
  | STEP_BACK =>
      rw [reducer_stepBack]
      refine ⟨le_max_left 0 _, fun htr => ?_, fun u hu => ?_, fun hp => by simp at hp⟩
      · have := hnone htr
        show max 0 (pos - 1) = 0
        omega
      · have := hsome u hu
        show max 0 (pos - 1) ≤ max 0 ((u.steps.length : Int) - 1)
        omega
  | PLAY =>
      cases tr with
      | none =>
          rw [reducer_play_none]
          exact ⟨h0, hnone, hsome, hplay⟩
      | some t =>
          rw [reducer_play_some]
          split_ifs with hc
          · exact ⟨h0, hnone, hsome, hplay⟩
          · refine ⟨h0, fun htr => by simp at htr, fun u hu => hsome u hu,
              fun _ => ⟨t, rfl, ?_⟩⟩
            omega
  | TICK =>
      cases tr with
      | none =>
          rw [reducer_tick_none]
          split_ifs with hc
          · exact ⟨h0, hnone, fun u hu => by simp at hu, fun hp => by simp at hp⟩
          · exact absurd (show pos + 1 ≥ (0 : Int) by omega) hc
      | some t =>
          rw [reducer_tick_some]
          split_ifs with hc
          · exact ⟨h0, fun htr => by simp at htr, fun u hu => hsome u hu,
              fun hp => by simp at hp⟩
          · refine ⟨?_, fun htr => by simp at htr, fun u hu => ?_, fun hp => hplay hp⟩
            · show (0 : Int) ≤ pos + 1
              omega
            · obtain rfl : t = u := Option.some.inj hu
              have := hsome t rfl
              show pos + 1 ≤ max 0 ((t.steps.length : Int) - 1)
              omega
  | STEP_FWD =>
      cases tr with
      | none =>
          rw [reducer_stepFwd_none]
          split_ifs with hc
          · exact ⟨h0, hnone, fun u hu => by simp at hu, fun hp => by simp at hp⟩
          · exact absurd (show pos + 1 ≥ (0 : Int) by omega) hc
      | some t =>
          rw [reducer_stepFwd_some]
          split_ifs with hc
          · exact ⟨h0, fun htr => by simp at htr, fun u hu => hsome u hu,
              fun hp => by simp at hp⟩
          · refine ⟨?_, fun htr => by simp at htr, fun u hu => ?_, fun hp => hplay hp⟩
            · show (0 : Int) ≤ pos + 1
              omega
            · obtain rfl : t = u := Option.some.inj hu
              have := hsome t rfl
              show pos + 1 ≤ max 0 ((t.steps.length : Int) - 1)
              omega
  | JUMP p =>
      cases tr with
      | none =>
          rw [reducer_jump_none]
          refine ⟨?_, fun _ => ?_, fun u hu => by simp at hu, fun hp => by simp at hp⟩
          · show (0 : Int) ≤ max 0 (min ((0 : Int) - 1) p)
            omega
          · show max 0 (min ((0 : Int) - 1) p) = 0
            omega
      | some t =>
          rw [reducer_jump_some]
          refine ⟨?_, fun htr => by simp at htr, fun u hu => ?_, fun hp => by simp at hp⟩
          · show (0 : Int) ≤ max 0 (min ((t.steps.length : Int) - 1) p)
            omega
          · obtain rfl : t = u := Option.some.inj hu
            show max 0 (min ((t.steps.length : Int) - 1) p) ≤ max 0 ((t.steps.length : Int) - 1)
            omega

lemma stateInv_applyActions (s : PlaybackState) (acts : List PlaybackActions)
    (h : StateInv s) : StateInv (applyActions s acts) := by
  induction acts generalizing s with
  | nil => exact h
  | cons a as ih => exact ih _ (stateInv_reducer _ _ h)

lemma stateInv_reachable (s : PlaybackState) (h : Reachable s) : StateInv s := by
  obtain ⟨t0, acts, rfl⟩ := h
  exact stateInv_applyActions _ _ (stateInv_initialEngineState t0)

section ConcreteRuns

lemma engine_after_play :
    applyActions (initialEngineState (some MOCK_TRACE)) [.PLAY] =
      ⟨some MOCK_TRACE, 0, true⟩ := rfl

lemma engine_after_play_ticks9 :
    applyActions (initialEngineState (some MOCK_TRACE)) ([.PLAY] ++ List.replicate 9 .TICK) =
      ⟨some MOCK_TRACE, 9, true⟩ := rfl

lemma mock0_play :
    applyActions ⟨some MOCK_TRACE, 0, false⟩ [.PLAY] = ⟨some MOCK_TRACE, 0, true⟩ := rfl

lemma mock0_play_ticks9 :
    applyActions ⟨some MOCK_TRACE, 0, false⟩ ([.PLAY] ++ List.replicate 9 .TICK) =
      ⟨some MOCK_TRACE, 9, true⟩ := rfl

lemma mock0_play_ticks10 :
    applyActions ⟨some MOCK_TRACE, 0, false⟩ ([.PLAY] ++ List.replicate 10 .TICK) =
      ⟨some MOCK_TRACE, 9, false⟩ := rfl

lemma mock0_play_ticks11 :
    applyActions ⟨some MOCK_TRACE, 0, false⟩ ([.PLAY] ++ List.replicate 11 .TICK) =
      ⟨some MOCK_TRACE, 9, false⟩ := rfl

end ConcreteRuns

/-- C1 counterexample: the invariant fails as stated. On the 10-step mock
trace, Play followed by nine timer ticks reaches a state (reachable by
construction) in which isPlaying is still true while the position equals
len(steps) - 1: the reducer only clears isPlaying on the advance that would
move past the end, so it is "playing" while sitting on the last step. -/
theorem claim_C1_counterexample :
    Reachable ⟨some MOCK_TRACE, 9, true⟩ ∧
    (⟨some MOCK_TRACE, 9, true⟩ : PlaybackState).isPlaying = true ∧
    (⟨some MOCK_TRACE, 9, true⟩ : PlaybackState).currentStepIndex =
      (MOCK_TRACE.steps.length : Int) - 1 := by
  refine ⟨?_, rfl, ?_⟩
  · rw [← engine_after_play_ticks9]
    exact reachable_applyActions _ _
  · decide

/-- C1 (amended): in every reachable state, isPlaying is never true while
the trace is absent; when isPlaying is true a trace with at least two steps
is loaded and the position is within bounds (at most len(steps) - 1). The
original stronger clause — never playing at position len(steps) - 1 — does
not hold: that state is reachable, and the following Advance stops playback. -/
theorem claim_C1_playing_invariant (s : PlaybackState) (h : Reachable s)
    (hp : s.isPlaying = true) :
    ∃ t, s.trace = some t ∧ 2 ≤ t.steps.length ∧
      0 ≤ s.currentStepIndex ∧ s.currentStepIndex ≤ (t.steps.length : Int) - 1 := by
  obtain ⟨h0, hnone, hsome, hplay⟩ := stateInv_reachable s h
  obtain ⟨t, ht, h2⟩ := hplay hp
  have := hsome t ht
  exact ⟨t, ht, h2, h0, by omega⟩

/-- Witness for C1: the reachable state after Play on the mock trace is
playing, so the amended invariant applies to it and yields a loaded trace. -/
theorem claim_C1_playing_invariant_witness :
    (applyActions (initialEngineState (some MOCK_TRACE)) [.PLAY]).trace.isSome = true := by
  obtain ⟨t, ht, -, -, -⟩ :=
    claim_C1_playing_invariant _ (reachable_applyActions (some MOCK_TRACE) [.PLAY])
      (by rw [engine_after_play])
  rw [ht]
  rfl

/-- C2 counterexample: on the 10-step mock trace from position 0, Play and
then nine Advances leave isPlaying equal to true, not false as claimed: the
ninth Advance moves onto the last step without stopping. -/
theorem claim_C2_counterexample :
    (applyActions ⟨some MOCK_TRACE, 0, false⟩
        ([.PLAY] ++ List.replicate 9 .TICK)).isPlaying = true := by
  rw [mock0_play_ticks9]

/-- C2 (amended): for the 10-step trace from position 0, isPlaying false:
Play sets isPlaying true; nine Advances reach position 9 with isPlaying
STILL true; the tenth Advance auto-stops (position 9, isPlaying false) and
so is not a no-op; the eleventh Advance leaves the state unchanged. -/
theorem claim_C2_scenario :
    (applyActions ⟨some MOCK_TRACE, 0, false⟩ [.PLAY]).isPlaying = true ∧
    (applyActions ⟨some MOCK_TRACE, 0, false⟩ [.PLAY]).currentStepIndex = 0 ∧
    applyActions ⟨some MOCK_TRACE, 0, false⟩ ([.PLAY] ++ List.replicate 9 .TICK) =
      ⟨some MOCK_TRACE, 9, true⟩ ∧
    applyActions ⟨some MOCK_TRACE, 0, false⟩ ([.PLAY] ++ List.replicate 10 .TICK) =
      ⟨some MOCK_TRACE, 9, false⟩ ∧
    applyActions ⟨some MOCK_TRACE, 0, false⟩ ([.PLAY] ++ List.replicate 11 .TICK) =
      applyActions ⟨some MOCK_TRACE, 0, false⟩ ([.PLAY] ++ List.replicate 10 .TICK) := by
  refine ⟨?_, ?_, mock0_play_ticks9, mock0_play_ticks10, ?_⟩
  · rw [mock0_play]
  · rw [mock0_play]
  · rw [mock0_play_ticks11, mock0_play_ticks10]

/-- C3: in every state reachable from an initial engine state by any command
sequence, the position satisfies 0 ≤ position, position ≤ max(0, len - 1)
whenever a trace is present, and position = 0 when the trace is absent. -/
theorem claim_C3_position_bounds (s : PlaybackState) (h : Reachable s) :
    0 ≤ s.currentStepIndex ∧
    (∀ t, s.trace = some t →
      s.currentStepIndex ≤ max 0 ((t.steps.length : Int) - 1)) ∧
    (s.trace = none → s.currentStepIndex = 0) := by
  obtain ⟨h0, hnone, hsome, _⟩ := stateInv_reachable s h
  exact ⟨h0, hsome, hnone⟩

/-- Witness for C3: the bounds hold at the concrete reachable state after
Play, a tick and an out-of-range jump on the mock trace. -/
theorem claim_C3_position_bounds_witness :
    0 ≤ (applyActions (initialEngineState (some MOCK_TRACE))
      [.PLAY, .TICK, .JUMP 50]).currentStepIndex :=
  (claim_C3_position_bounds _
    (reachable_applyActions (some MOCK_TRACE) [.PLAY, .TICK, .JUMP 50])).1

/-- C4: for every prior state, SET_TRACE(t) yields exactly
trace = t, position = 0, isPlaying = false. -/
theorem claim_C4_setTrace_resets (s : PlaybackState) (t : Option ExecutionTrace) :
    playbackReducer s (.SET_TRACE t) =
      { trace := t, currentStepIndex := 0, isPlaying := false } := rfl

/-- C5: over states satisfying the engine invariant, PLAY returns the state
unchanged (no error) when the trace is absent, has zero steps, or the
position is the final index; otherwise it sets isPlaying to true and
changes nothing else. -/
theorem claim_C5_play_noop_or_start (s : PlaybackState) (h : StateInv s) :
    ((s.trace = none ∨ ∃ t, s.trace = some t ∧
        (t.steps.length = 0 ∨ s.currentStepIndex = (t.steps.length : Int) - 1)) →
      playbackReducer s .PLAY = s) ∧
    (∀ t, s.trace = some t → t.steps.length ≠ 0 →
      s.currentStepIndex ≠ (t.steps.length : Int) - 1 →
      playbackReducer s .PLAY = { s with isPlaying := true }) := by
  obtain ⟨tr, pos, play⟩ := s
  have h0 : (0 : Int) ≤ pos := h.1
  have hsome : ∀ u, tr = some u → pos ≤ max 0 ((u.steps.length : Int) - 1) := h.2.2.1
  constructor
  · rintro (htr | ⟨t, htr, hcase⟩)
    · have ht : tr = none := htr
      subst ht
      rw [reducer_play_none]
    · have ht : tr = some t := htr
      subst ht
      have hcond : pos ≥ (t.steps.length : Int) - 1 := by
        rcases hcase with hzero | hlast
        · have : pos = (pos : Int) := rfl
          omega
        · have hl : pos = (t.steps.length : Int) - 1 := hlast
          omega
      rw [reducer_play_some, if_pos hcond]
  · intro t htr hne hlast
    have ht : tr = some t := htr
    subst ht
    have hub := hsome t rfl
    have hlast' : pos ≠ (t.steps.length : Int) - 1 := hlast
    have hcond : ¬(pos ≥ (t.steps.length : Int) - 1) := by omega
    rw [reducer_play_some, if_neg hcond]

/-- Witness for C5: on the freshly loaded 10-step mock trace, PLAY flips
only the isPlaying flag. -/
theorem claim_C5_play_noop_or_start_witness :
    playbackReducer (initialEngineState (some MOCK_TRACE)) .PLAY =
      { initialEngineState (some MOCK_TRACE) with isPlaying := true } :=
  (claim_C5_play_noop_or_start _ (stateInv_initialEngineState (some MOCK_TRACE))).2
    MOCK_TRACE rfl (by decide) (by decide)

/-- C6: for every state and every integer i, JUMP(i) keeps the trace, sets
isPlaying to false, and sets the position to clamp(i, 0, len - 1), which is
0 when the trace is empty or absent; the command is total (never throws). -/
theorem claim_C6_jump_clamps (s : PlaybackState) (i : Int) :
    (playbackReducer s (.JUMP i)).trace = s.trace ∧
    (playbackReducer s (.JUMP i)).isPlaying = false ∧
    (playbackReducer s (.JUMP i)).currentStepIndex =
      (match s.trace with
       | none => 0
       | some t =>
           if t.steps.length = 0 then 0
           else max 0 (min ((t.steps.length : Int) - 1) i)) := by
  obtain ⟨tr, pos, play⟩ := s
  cases tr with
  | none =>
      rw [reducer_jump_none]
      refine ⟨rfl, rfl, ?_⟩
      show max 0 (min ((0 : Int) - 1) i) = 0
      omega
  | some t =>
      rw [reducer_jump_some]
      refine ⟨rfl, rfl, ?_⟩
      show max 0 (min ((t.steps.length : Int) - 1) i) =
        if t.steps.length = 0 then 0 else max 0 (min ((t.steps.length : Int) - 1) i)
      split_ifs with hlen
      · omega
      · rfl

/-- C7: setSpeed stores the clamp of its argument to [0.1, 5.0] (values
outside the range go to the nearest bound) into the speed cell and leaves
the whole PlaybackState — trace, position and isPlaying — untouched. -/
theorem claim_C7_setSpeed_clamp_only (e : EngineState) (x : ℚ) :
    (setSpeed e x).playback = e.playback ∧
    (setSpeed e x).speedRef = max (1 / 10) (min 5 x) ∧
    (setSpeed e x).speedRef = if x < 1 / 10 then 1 / 10 else if 5 < x then 5 else x := by
  refine ⟨rfl, rfl, ?_⟩
  show max (1 / 10 : ℚ) (min 5 x) = _
  split_ifs with h1 h2
  · rw [min_eq_right (le_of_lt (h1.trans (by norm_num))), max_eq_left (le_of_lt h1)]
  · rw [min_eq_left (le_of_lt h2), max_eq_right (by norm_num)]
  · rw [min_eq_right (not_lt.mp h2), max_eq_right (not_lt.mp h1)]

/-- C8: the speed-to-delay mapping coincides with the spec's
rateToIntervalMs(x) = round(1000 / x); it yields 200 ms at rate 5.0 and
10000 ms at rate 0.1, and is monotonically decreasing on [0.1, 5.0]. -/
theorem claim_C8_rate_interval_mapping :
    (∀ x : ℚ, speedToDelay x = rateToIntervalMs x) ∧
    speedToDelay 5 = 200 ∧
    speedToDelay (1 / 10) = 10000 ∧
    (∀ x y : ℚ, 1 / 10 ≤ x → x ≤ y → y ≤ 5 → speedToDelay y ≤ speedToDelay x) := by
  refine ⟨fun _ => rfl, ?_, ?_, ?_⟩
  · show round ((1000 : ℚ) / 5) = 200
    rw [show (1000 : ℚ) / 5 = ((200 : ℤ) : ℚ) by norm_num, round_intCast]
  · show round ((1000 : ℚ) / (1 / 10)) = 10000
    rw [show (1000 : ℚ) / (1 / 10) = ((10000 : ℤ) : ℚ) by norm_num, round_intCast]
  · intro x y hx hxy hy
    have hx0 : (0 : ℚ) < x := lt_of_lt_of_le (by norm_num) hx
    have hdiv : (1000 : ℚ) / y ≤ 1000 / x :=
      div_le_div_of_nonneg_left (by norm_num) hx0 hxy
    show round ((1000 : ℚ) / y) ≤ round ((1000 : ℚ) / x)
    rw [round_eq, round_eq]
    exact Int.floor_le_floor (by linarith)

/-- Witness for C8: the mapping equation and the monotone-decrease both hold
at concrete rates. -/
theorem claim_C8_rate_interval_mapping_witness :
    speedToDelay 1 = rateToIntervalMs 1 ∧ speedToDelay 5 ≤ speedToDelay 2 :=
  ⟨claim_C8_rate_interval_mapping.1 1,
   claim_C8_rate_interval_mapping.2.2.2 2 5 (by norm_num) (by norm_num) (by norm_num)⟩

/-- C9: reading the playback context with no provider in scope (a null
context) fails fast with an error instead of producing a degraded value,
while a provided engine is returned as-is. -/
theorem claim_C9_usePlayback_fail_fast :
    (∀ (α : Type), usePlayback (none : Option α) =
      Except.error "usePlayback must be used within PlaybackProvider") ∧
    (∀ (α : Type) (engine : α), usePlayback (some engine) = Except.ok engine) :=
  ⟨fun _ => rfl, fun _ _ => rfl⟩

/-- C10: the internal timer action TICK and the user command STEP_FWD are
mapped by the reducer to identical results on every state, so timer-driven
advance and manual step-forward are one and the same transition. -/
theorem claim_C10_tick_eq_stepFwd (s : PlaybackState) :
    playbackReducer s .TICK = playbackReducer s .STEP_FWD := rfl

end Alvis
